import Mathlib

/-!
Verification development for the MaiChart audio-processing backend.

The Python sources are shallowly embedded:
* durations and timestamps are exact rationals (the source uses Python
  floats, but every computation the claims mention is exact),
* external effects (FFmpeg availability, success of an ffmpeg subprocess
  call, exceptions escaping a try block, handler outcomes) are explicit
  boolean parameters,
* the Redis store (stream pending-entries list, dead-letter stream,
  session hashes, chunk-status hashes) is explicit state threaded through
  the functions that the source runs against it.

File paths, timestamps and log output are not modelled; where a record
field of the source holds one of these it is either dropped or passed in
as an opaque string argument.
-/

namespace MaiChart

/-! ## Audio chunker (backend/core/audio_chunker.py) -/

/-- Embeds the chunk-info dict built by `AudioChunker.create_chunks` /
`AudioChunker._create_single_chunk_info`.  The `chunk_id`, `chunk_path`,
`file_size` and `created_at` fields (filesystem / wall-clock data) are not
modelled. -/
structure AudioChunk where
  chunk_index : ℕ
  start_time : ℚ
  end_time : ℚ
  duration : ℚ
  is_original : Bool
  deriving Repr, DecidableEq

/-- Embeds `AudioChunker.get_audio_duration`: ffprobe is skipped and `0.0`
returned when FFmpeg is unavailable; otherwise the probe reports the
artifact's duration `d`.  (A failing probe also yields `0.0` in the source;
that failure mode is not modelled separately.) -/
def get_audio_duration (ffmpeg_available : Bool) (d : ℚ) : ℚ :=
  if ffmpeg_available then d else 0

/-- Embeds `AudioChunker._create_single_chunk_info`: one whole-file chunk
whose end time is the measured duration. -/
def create_single_chunk_info (ffmpeg_available : Bool) (d : ℚ) : AudioChunk :=
  { chunk_index := 0
    start_time := 0
    end_time := get_audio_duration ffmpeg_available d
    duration := get_audio_duration ffmpeg_available d
    is_original := true }

/-- Embeds `AudioChunker.create_chunks`.

* `chunk_duration` and `overlap` are the constructor's int parameters;
* `d` is the artifact's true duration as ffprobe would report it;
* `chunk_ok i` is the success of the ffmpeg subprocess for chunk `i`
  (`_create_audio_chunk`); a failed chunk is logged and skipped;
* `raises` models an exception escaping anywhere in the try block, whose
  handler falls back to a single whole-file chunk.  The division by
  `chunk_duration - overlap` raising `ZeroDivisionError` is the one
  in-scope statement that can raise, so it is kept as its own branch;
  with a negative difference the source's `range` of a non-positive
  `total_chunks` is empty, matching `Int.toNat`. -/
def create_chunks (ffmpeg_available : Bool) (chunk_duration overlap : ℤ)
    (d : ℚ) (chunk_ok : ℕ → Bool) (raises : Bool) : List AudioChunk :=
  if ffmpeg_available = false then
    [create_single_chunk_info ffmpeg_available d]
  else if raises then
    [create_single_chunk_info ffmpeg_available d]
  else if d ≤ (chunk_duration : ℚ) then
    [create_single_chunk_info ffmpeg_available d]
  else if chunk_duration - overlap = 0 then
    [create_single_chunk_info ffmpeg_available d]
  else
    let width : ℚ := (chunk_duration : ℚ) - (overlap : ℚ)
    let total_chunks : ℕ := (Int.ceil (d / width)).toNat
    (List.range total_chunks).filterMap fun (i : ℕ) =>
      let start_time : ℚ := (i : ℚ) * width
      let end_time : ℚ := min (start_time + (chunk_duration : ℚ)) d
      if end_time - start_time < 5 then none
      else if chunk_ok i then
        some { chunk_index := i
               start_time := start_time
               end_time := end_time
               duration := end_time - start_time
               is_original := false }
      else none

/-- Helper for `pywords`: scan the character list, accumulating the
current word (reversed) and emitting it at each whitespace run. -/
def pywordsAux : List Char → List Char → List String
  | [], acc => if acc.isEmpty then [] else [String.mk acc.reverse]
  | c :: cs, acc =>
    if c.isWhitespace then
      if acc.isEmpty then pywordsAux cs [] else String.mk acc.reverse :: pywordsAux cs []
    else pywordsAux cs (c :: acc)

/-- Python's `str.split()` with no separator: split on whitespace runs,
discarding empty pieces.  (Implemented by structural recursion on the
character list so that concrete instances reduce.) -/
def pywords (s : String) : List String :=
  pywordsAux s.data []

/-- Python's `str.strip()`: drop leading and trailing whitespace. -/
def pystrip (s : String) : String :=
  String.mk (((s.data.dropWhile Char.isWhitespace).reverse.dropWhile
    Char.isWhitespace).reverse)

/-- Python's `sep.join(words)`. -/
def py_join (sep : String) : List String → String
  | [] => ""
  | [w] => w
  | w :: ws => w ++ sep ++ py_join sep ws

/-- Embeds `AudioChunker._remove_overlap`.  Note the loop bound of the
source: `range(1, min(6, len(prev_words), len(curr_words)) + 1)`, i.e.
candidate overlap lengths run from 1 up to 6 (not 5), and the final value
of `overlap_size` is the largest matching candidate. -/
def remove_overlap (previous_text current_text : String) : String :=
  let prev_words := pywords previous_text
  let curr_words := pywords current_text
  if prev_words.length < 5 ∨ curr_words.length < 5 then current_text
  else
    let bound := min 6 (min prev_words.length curr_words.length)
    let overlap_size :=
      (List.range' 1 bound).foldl
        (fun acc i =>
          if prev_words.drop (prev_words.length - i) = curr_words.take i
          then i else acc) 0
    if 0 < overlap_size then
      py_join " " (curr_words.drop overlap_size)
    else current_text

/-- Modelled from the spec: the overlap-removal step as the specification
words it, comparing the last 5 words of the accumulated text with the
first 5 words of the incoming text and stripping the longest matching
prefix, checked for match lengths 5 down to 1.  Used only to exhibit where
the source diverges from this description. -/
def remove_overlap_spec (previous_text current_text : String) : String :=
  let prev_words := pywords previous_text
  let curr_words := pywords current_text
  let overlap_size :=
    (([5, 4, 3, 2, 1].filter fun i =>
        decide (i ≤ prev_words.length ∧ i ≤ curr_words.length ∧
          prev_words.drop (prev_words.length - i) = curr_words.take i)).headD 0)
  if 0 < overlap_size then
    py_join " " (curr_words.drop overlap_size)
  else current_text

/-- One per-chunk transcription result as consumed by
`AudioChunker.merge_transcripts` (the dicts built in
`AudioHandler._merge_chunk_results`). -/
structure ChunkResult where
  chunk_index : ℕ
  transcript_text : String
  transcript_confidence : ℚ
  duration : ℚ
  deriving Repr, DecidableEq

/-- The dict returned by `AudioChunker.merge_transcripts` /
`AudioHandler._merge_chunk_results`. -/
structure MergedResult where
  text : String
  confidence : ℚ
  duration : ℚ
  words : ℕ
  chunks_processed : ℕ
  status : String
  error : Option String
  deriving Repr, DecidableEq

/-- Accumulator of the loop in `merge_transcripts`. -/
structure MergeAcc where
  full_text : String
  total_confidence : ℚ
  total_duration : ℚ
  total_words : ℕ
  deriving Repr, DecidableEq

/-- One iteration of the loop body of `merge_transcripts` at position `i`
of `n` chunks. -/
def merge_step (n : ℕ) (acc : MergeAcc) (p : ℕ × ChunkResult) : MergeAcc :=
  let i := p.1
  let chunk := p.2
  let chunk_text0 := pystrip chunk.transcript_text
  let chunk_text :=
    if chunk_text0 ≠ "" ∧ 0 < i ∧ acc.full_text ≠ "" then
      remove_overlap acc.full_text chunk_text0
    else chunk_text0
  let full_text :=
    if chunk_text0 ≠ "" then
      let t := acc.full_text ++ chunk_text
      if i < n - 1 then t ++ " " else t
    else acc.full_text
  { full_text := full_text
    total_confidence := acc.total_confidence + chunk.transcript_confidence
    total_duration := acc.total_duration + chunk.duration
    total_words := acc.total_words +
      (if chunk_text ≠ "" then (pywords chunk_text).length else 0) }

/-- Embeds `AudioChunker.merge_transcripts` (its exception handler is dead
in this embedding, so the result always carries `status = "completed"`;
an empty input yields a completed result with empty text, exactly as in
the source). -/
def merge_transcripts (chunk_results : List ChunkResult) : MergedResult :=
  let sorted_chunks :=
    chunk_results.mergeSort fun a b => decide (a.chunk_index ≤ b.chunk_index)
  let n := sorted_chunks.length
  let acc := sorted_chunks.enum.foldl (merge_step n) ⟨"", 0, 0, 0⟩
  let avg_confidence := if 0 < n then acc.total_confidence / (n : ℚ) else 0
  { text := pystrip acc.full_text
    confidence := avg_confidence
    duration := acc.total_duration
    words := acc.total_words
    chunks_processed := n
    status := "completed"
    error := none }

/-- The `chunk_status:<chunk_id>` hash kept in Redis for each queued
chunk. -/
structure ChunkStatusRec where
  status : String
  transcript_text : String
  transcript_confidence : ℚ
  deriving Repr, DecidableEq

/-- The chunk-result collection loop of `AudioHandler._merge_chunk_results`:
each recorded chunk is paired with its current status hash (`none` once the
hash is deleted, expired, or never written); only hashes with
`status == "completed"` contribute. -/
def completed_chunk_results
    (chunks : List (AudioChunk × Option ChunkStatusRec)) : List ChunkResult :=
  chunks.filterMap fun p =>
    p.2.bind fun st =>
      if st.status = "completed" then
        some { chunk_index := p.1.chunk_index
               transcript_text := st.transcript_text
               transcript_confidence := st.transcript_confidence
               duration := p.1.duration }
      else none

/-- Embeds `AudioHandler._merge_chunk_results`: with no completed chunk a
terminal error result is returned, otherwise the completed results are
merged. -/
def merge_chunk_results
    (chunks : List (AudioChunk × Option ChunkStatusRec)) : MergedResult :=
  let chunk_results := completed_chunk_results chunks
  if chunk_results.isEmpty then
    { text := ""
      confidence := 0
      duration := 0
      words := 0
      chunks_processed := 0
      status := "error"
      error := some "No completed chunks found" }
  else merge_transcripts chunk_results

/-! ## Session state and the completion reconciler
(backend/core/audio_handler.py) -/

/-- The chunk-status counters of `AudioHandler._get_chunked_progress`. -/
structure ChunkedProgress where
  completed_chunks : ℕ
  processing_chunks : ℕ
  failed_chunks : ℕ
  deriving Repr, DecidableEq

/-- The counting loop of `_get_chunked_progress`: chunks whose status hash
is gone contribute to no counter, the rest are classified by their
`status` field. -/
def count_chunk_status (chunks : List (AudioChunk × Option ChunkStatusRec))
    (s : String) : ℕ :=
  (chunks.filterMap Prod.snd).countP fun r => r.status == s

/-- Embeds `AudioHandler._get_chunked_progress` (the `progress_percent` and
`pending_chunks` fields, unused by the claims, are not modelled).  With
`total_chunks = 0` the source returns early with zero counters. -/
def get_chunked_progress (total_chunks : ℕ)
    (chunks : List (AudioChunk × Option ChunkStatusRec)) : ChunkedProgress :=
  if total_chunks = 0 then ⟨0, 0, 0⟩
  else
    { completed_chunks := count_chunk_status chunks "completed"
      processing_chunks := count_chunk_status chunks "processing"
      failed_chunks := count_chunk_status chunks "error" }

/-- The `session_status:<id>` hash (the fields the reconciler touches;
`total_chunks` and `chunks` are written once at session creation by
`_process_chunked_audio`, where `total_chunks = len(chunks_info)`).  The
`transcript_path` and the `*_at` timestamps are not modelled;
`chunk_files_deleted` records the effect of
`AudioChunker.cleanup_chunks` on the chunk artifacts. -/
structure SessionState where
  processing_strategy : String
  status : String
  total_chunks : ℕ
  chunks : List (AudioChunk × Option ChunkStatusRec)
  transcript_text : String
  transcript_confidence : ℚ
  transcript_words : ℕ
  chunks_processed : ℕ
  warning : Option String
  error : Option String
  chunk_files_deleted : Bool
  deriving Repr, DecidableEq

/-- Embeds `AudioHandler.check_chunked_completion`: returns the updated
session together with the source's boolean result.  The source binds the
progress counters and the merged result once each; both are pure, so the
bindings are inlined here.  Deleting the `chunk_status:*` keys in
`_cleanup_session_chunks` turns every chunk's status hash to `none`;
deleting the chunk files sets `chunk_files_deleted`. -/
def check_chunked_completion (sess : SessionState) : SessionState × Bool :=
  if sess.processing_strategy ≠ "chunked" then (sess, false)
  else if (get_chunked_progress sess.total_chunks sess.chunks).completed_chunks +
      (get_chunked_progress sess.total_chunks sess.chunks).failed_chunks <
        sess.total_chunks then
    (sess, false)
  else if (get_chunked_progress sess.total_chunks sess.chunks).completed_chunks
      = 0 then
    ({ sess with
        status := "error"
        error := some "All chunks failed to process" }, true)
  else if (merge_chunk_results sess.chunks).status = "completed" then
    ({ sess with
        status := "completed"
        transcript_text := (merge_chunk_results sess.chunks).text
        transcript_confidence := (merge_chunk_results sess.chunks).confidence
        transcript_words := (merge_chunk_results sess.chunks).words
        chunks_processed := (merge_chunk_results sess.chunks).chunks_processed
        warning :=
          if 0 < (get_chunked_progress sess.total_chunks sess.chunks).failed_chunks
          then
            some (toString
                (get_chunked_progress sess.total_chunks sess.chunks).failed_chunks ++
              " chunks failed but transcript completed with available chunks")
          else sess.warning
        chunks := sess.chunks.map fun p => (p.1, none)
        chunk_files_deleted := true }, true)
  else
    ({ sess with
        status := "error"
        error := some ((merge_chunk_results sess.chunks).error.getD
          "Failed to merge chunks") }, true)

/-! ## Worker runtime and Redis stream model
(backend/workers/base_worker.py, backend/workers/transcription_worker.py,
backend/core/redis_client.py)

A Redis stream entry's field map is immutable once added; redelivery (via
`XREADGROUP` of new messages or `XCLAIM` of pending ones) always carries
the original fields.  The consumer group's pending-entries list (PEL)
holds, per unacknowledged message, its current owner and idle time;
`XACK` removes the entry, `XCLAIM` transfers ownership and resets the
idle time when the entry has been idle at least `min_idle_time`.  These
are the documented Redis command semantics the source runs against; Redis
executes commands atomically, so concurrency is interleaving of these
atomic operations. -/

/-- One pending-entries-list entry: message id, owning consumer, idle
time in milliseconds. -/
structure PelEntry where
  message_id : ℕ
  consumer : String
  idle : ℕ
  deriving Repr, DecidableEq

/-- Redis `XACK` (`RedisClient.acknowledge_message`): remove the entry
from the pending list; acknowledging an absent id is a no-op. -/
def xack (pel : List PelEntry) (id : ℕ) : List PelEntry :=
  pel.filter fun e => e.message_id != id

/-- Look up a message's pending entry (first match). -/
def find_pel (pel : List PelEntry) (id : ℕ) : Option PelEntry :=
  match pel with
  | [] => none
  | e :: rest => if e.message_id = id then some e else find_pel rest id

/-- Redis `XCLAIM` with `min_idle_time`: if the entry has been idle at
least `min_idle`, transfer ownership to `consumer` and reset its idle
time, returning success; otherwise (or if the entry is gone) change
nothing and return failure.  Executed atomically by the store. -/
def xclaim (pel : List PelEntry) (consumer : String) (min_idle : ℕ)
    (id : ℕ) : List PelEntry × Bool :=
  match find_pel pel id with
  | none => (pel, false)
  | some e =>
    if min_idle ≤ e.idle then
      (pel.map fun x =>
        if x.message_id = id then { x with consumer := consumer, idle := 0 }
        else x, true)
    else (pel, false)

/-- The body of `RedisClient.claim_old_messages` for one pending message:
the `xpending_range` snapshot supplies `snapshot_idle`, and the message is
claimed only if that snapshot shows it idle for strictly more than
`min_idle_time`. -/
def claim_one (pel : List PelEntry) (consumer : String) (min_idle : ℕ)
    (id : ℕ) (snapshot_idle : ℕ) : List PelEntry × Bool :=
  if min_idle < snapshot_idle then xclaim pel consumer min_idle id
  else (pel, false)

/-- One entry of the dead-letter stream, as built by
`BaseWorker.send_to_dead_letter_queue`: the `original_*` copies of the
payload are kept as the field map itself. -/
structure DlqEntry where
  original_message_id : ℕ
  original_stream : String
  error : String
  failed_at : String
  retry_count : String
  original_fields : List (String × String)
  deriving Repr, DecidableEq

/-- Worker-visible Redis state: the origin topic's pending list and the
dead-letter stream's entries. -/
structure WorkerState where
  pel : List PelEntry
  dlq : List DlqEntry
  deriving Repr, DecidableEq

/-- Python's `int(...)` on the digit strings used for `retry_count`
(non-numeric input raises, which `get_retry_count` turns into 0). -/
def py_int_str (v : String) : Option ℕ :=
  if v.data ≠ [] ∧ v.data.all Char.isDigit then
    some (v.data.foldl (fun n c => n * 10 + (c.toNat - 48)) 0)
  else none

/-- Embeds `RedisClient.get_retry_count`: read `retry_count` from the
message's field map, defaulting to 0 on absence or parse failure. -/
def get_retry_count (fields : List (String × String)) : ℕ :=
  match fields.lookup "retry_count" with
  | none => 0
  | some v => (py_int_str v).getD 0

/-- Embeds `RedisClient.increment_retry_count`: a dict update on the
in-memory field map (the stream's copy is immutable and unaffected). -/
def increment_retry_count
    (fields : List (String × String)) : List (String × String) :=
  ("retry_count", Nat.repr (get_retry_count fields + 1)) ::
    fields.filter fun p => p.1 != "retry_count"

/-- Embeds `BaseWorker.send_to_dead_letter_queue`: append one entry to
the `<stream>_dlq` stream carrying the original message id, stream,
error, failure time and payload. -/
def send_to_dead_letter_queue (st : WorkerState) (stream_name : String)
    (id : ℕ) (fields : List (String × String)) (error now : String) :
    WorkerState :=
  { st with
      dlq := st.dlq ++ [{ original_message_id := id
                          original_stream := stream_name
                          error := error
                          failed_at := now
                          retry_count := (fields.lookup "retry_count").getD "0"
                          original_fields := fields }] }

/-- Embeds the per-message handling of `BaseWorker.run` (the body of the
inner loop): dead-letter and acknowledge at `retry_count >= 3`; otherwise
the local retry-count increment does not touch the store, and the message
is acknowledged only when the handler returns success — a raising or
failing handler leaves the entry pending (the handler's session-status
update is outside this state). -/
def base_worker_handle_message (st : WorkerState) (stream_name : String)
    (id : ℕ) (fields : List (String × String)) (now : String)
    (handler_success handler_raises : Bool) : WorkerState :=
  if 3 ≤ get_retry_count fields then
    let st1 := send_to_dead_letter_queue st stream_name id fields
      "Max retries exceeded" now
    { st1 with pel := xack st1.pel id }
  else
    if handler_raises then st
    else if handler_success then { st with pel := xack st.pel id }
    else st

/-- Embeds the per-message handling of `FixedTranscriptionWorker.run`
(lines 781-820): the message is acknowledged regardless of handler
success or a raised exception, and never dead-lettered. -/
def fixed_worker_handle_message (st : WorkerState) (id : ℕ)
    (_fields : List (String × String))
    (_handler_success _handler_raises : Bool) : WorkerState :=
  { st with pel := xack st.pel id }

/-- Embeds `BaseWorker.recover_stuck_messages` handling of one claimed
stuck message: dead-letter and acknowledge at `retry_count >= 3`;
otherwise increment the in-memory retry count (store untouched), process,
and acknowledge only on success. -/
def recover_stuck_message (st : WorkerState) (stream_name : String)
    (id : ℕ) (fields : List (String × String)) (now : String)
    (handler_success : Bool) : WorkerState :=
  if 3 ≤ get_retry_count fields then
    let st1 := send_to_dead_letter_queue st stream_name id fields
      "Max retries exceeded" now
    { st1 with pel := xack st1.pel id }
  else
    if handler_success then { st with pel := xack st.pel id } else st

/-- One failing redelivery cycle of a stuck message: a worker claims it
(`claim_old_messages` uses `min_idle_time = 300000`), reprocesses the
original immutable fields, and the handler fails again. -/
def failing_delivery_pass (st : WorkerState) (stream_name consumer : String)
    (id : ℕ) (fields : List (String × String)) (now : String) : WorkerState :=
  let st1 := { st with pel := (xclaim st.pel consumer 300000 id).1 }
  recover_stuck_message st1 stream_name id fields now false

/-- Iterate `n` failing redelivery cycles. -/
def failing_delivery_passes (stream_name consumer : String) (id : ℕ)
    (fields : List (String × String)) (now : String) :
    ℕ → WorkerState → WorkerState
  | 0, st => st
  | n + 1, st =>
    failing_delivery_passes stream_name consumer id fields now n
      (failing_delivery_pass st stream_name consumer id fields now)

/-- The abstract outcomes of one iteration of the worker main loop. -/
inductive LoopEvent where
  | noMessages
  | msgSuccess
  | msgFailure
  | msgException
  | loopError
  deriving Repr, DecidableEq

/-- Embeds the `consecutive_errors` bookkeeping of the `while self.running`
loop of `BaseWorker.run` (the loop of `FixedTranscriptionWorker.run` is
identical): an empty read or a handled success resets the counter, a
failed handler leaves it, an in-handler exception increments it with no
exit check, and a loop-level error increments it and breaks out once it
reaches `max_consecutive_errors = 5`.  Returns the value `run` returns
(`return 0` after the loop, whether it ended by stop signal or by the
break) together with the number of messages processed. -/
def run_loop : List LoopEvent → ℕ → ℕ × ℕ
  | [], _ => (0, 0)
  | e :: rest, consecutive_errors =>
    match e with
    | .noMessages => run_loop rest 0
    | .msgSuccess =>
      let r := run_loop rest 0
      (r.1, r.2 + 1)
    | .msgFailure =>
      let r := run_loop rest consecutive_errors
      (r.1, r.2 + 1)
    | .msgException =>
      let r := run_loop rest (consecutive_errors + 1)
      (r.1, r.2 + 1)
    | .loopError =>
      if 5 ≤ consecutive_errors + 1 then (0, 0)
      else run_loop rest (consecutive_errors + 1)

/-- Embeds `BaseWorker.run`: a failed dependency check returns 1; the
main loop's return value is 0 on every exit path. -/
def base_worker_run (deps_ok : Bool) (events : List LoopEvent) : ℕ × ℕ :=
  if deps_ok = false then (1, 0) else run_loop events 0

/-! ## Theorems and claim verdicts -/

/-! ## Chunker lemmas and claims -/

/-- Unfolding of `create_chunks` in the genuinely-chunking case. -/
lemma create_chunks_of_long (cd ov : ℤ) (d : ℚ) (ok : ℕ → Bool)
    (hov : ov < cd) (hd : (cd : ℚ) < d) :
    create_chunks true cd ov d ok false =
      (List.range (Int.ceil (d / ((cd : ℚ) - (ov : ℚ)))).toNat).filterMap
        (fun (i : ℕ) =>
          if min ((i : ℚ) * ((cd : ℚ) - (ov : ℚ)) + (cd : ℚ)) d -
              (i : ℚ) * ((cd : ℚ) - (ov : ℚ)) < 5 then none
          else if ok i then
            some { chunk_index := i
                   start_time := (i : ℚ) * ((cd : ℚ) - (ov : ℚ))
                   end_time := min ((i : ℚ) * ((cd : ℚ) - (ov : ℚ)) + (cd : ℚ)) d
                   duration := min ((i : ℚ) * ((cd : ℚ) - (ov : ℚ)) + (cd : ℚ)) d -
                     (i : ℚ) * ((cd : ℚ) - (ov : ℚ))
                   is_original := false }
          else none) := by
  rw [create_chunks]
  rw [if_neg (by simp), if_neg (by simp), if_neg (not_le.mpr hd),
    if_neg (by omega : ¬(cd - ov = 0))]

/-- Evaluation of the spec's worked example: 700 s artifact, 180 s chunks,
10 s overlap. -/
lemma create_chunks_example :
    create_chunks true 180 10 700 (fun _ => true) false =
      [⟨0, 0, 180, 180, false⟩, ⟨1, 170, 350, 180, false⟩, ⟨2, 340, 520, 180, false⟩,
       ⟨3, 510, 690, 180, false⟩, ⟨4, 680, 700, 20, false⟩] := by
  have h5 : (Int.ceil ((70 : ℚ) / 17)).toNat = 5 := by
    have h : (Int.ceil ((70 : ℚ) / 17)) = 5 := by
      rw [Int.ceil_eq_iff]
      norm_num
    rw [h]
    rfl
  rw [create_chunks]
  norm_num [h5, List.range_succ, List.filterMap_append, List.filterMap_cons, min_def]

/-- C1: for an artifact longer than `chunk_duration`, `create_chunks`
emits, for indices `i` below `ceil(duration / (chunk_duration - overlap))`,
chunks with `start = i * (chunk_duration - overlap)` and
`end = min(start + chunk_duration, duration)`, dropping exactly those
shorter than 5 seconds; on the spec's example (700 s, 180 s chunks, 10 s
overlap) this yields the five chunks 0-180, 170-350, 340-520, 510-690,
680-700. -/
theorem create_chunks_split_formula (cd ov : ℤ) (d : ℚ)
    (hov : ov < cd) (hd : (cd : ℚ) < d) :
    (∀ ch ∈ create_chunks true cd ov d (fun _ => true) false,
        ch.start_time = (ch.chunk_index : ℚ) * ((cd : ℚ) - (ov : ℚ)) ∧
        ch.end_time = min (ch.start_time + (cd : ℚ)) d ∧
        ch.chunk_index < (Int.ceil (d / ((cd : ℚ) - (ov : ℚ)))).toNat ∧
        5 ≤ ch.end_time - ch.start_time) ∧
    (∀ i < (Int.ceil (d / ((cd : ℚ) - (ov : ℚ)))).toNat,
        5 ≤ min ((i : ℚ) * ((cd : ℚ) - (ov : ℚ)) + (cd : ℚ)) d -
            (i : ℚ) * ((cd : ℚ) - (ov : ℚ)) →
        ∃ ch ∈ create_chunks true cd ov d (fun _ => true) false,
          ch.chunk_index = i ∧
          ch.start_time = (i : ℚ) * ((cd : ℚ) - (ov : ℚ)) ∧
          ch.end_time = min ((i : ℚ) * ((cd : ℚ) - (ov : ℚ)) + (cd : ℚ)) d) ∧
    create_chunks true 180 10 700 (fun _ => true) false =
      [⟨0, 0, 180, 180, false⟩, ⟨1, 170, 350, 180, false⟩, ⟨2, 340, 520, 180, false⟩,
       ⟨3, 510, 690, 180, false⟩, ⟨4, 680, 700, 20, false⟩] := by
  rw [create_chunks_of_long cd ov d _ hov hd]
  refine ⟨?_, ?_, create_chunks_example⟩
  · intro ch hch
    rw [List.mem_filterMap] at hch
    obtain ⟨i, hi, hfi⟩ := hch
    rw [List.mem_range] at hi
    by_cases hshort : min ((i : ℚ) * ((cd : ℚ) - (ov : ℚ)) + (cd : ℚ)) d -
        (i : ℚ) * ((cd : ℚ) - (ov : ℚ)) < 5
    · rw [if_pos hshort] at hfi
      cases hfi
    · rw [if_neg hshort, if_pos rfl] at hfi
      cases hfi
      exact ⟨rfl, rfl, hi, le_of_not_lt hshort⟩
  · intro i hi hlen
    refine ⟨⟨i, (i : ℚ) * ((cd : ℚ) - (ov : ℚ)),
      min ((i : ℚ) * ((cd : ℚ) - (ov : ℚ)) + (cd : ℚ)) d,
      min ((i : ℚ) * ((cd : ℚ) - (ov : ℚ)) + (cd : ℚ)) d -
        (i : ℚ) * ((cd : ℚ) - (ov : ℚ)), false⟩, ?_, rfl, rfl, rfl⟩
    rw [List.mem_filterMap]
    refine ⟨i, List.mem_range.mpr hi, ?_⟩
    rw [if_neg (not_lt.mpr hlen), if_pos rfl]

/-- Witness for C1 at the spec's example values. -/
theorem create_chunks_split_formula_witness :
    ∃ ch ∈ create_chunks true 180 10 700 (fun _ => true) false,
      ch.chunk_index = 4 ∧
      ch.start_time = ((4 : ℕ) : ℚ) * ((180 : ℚ) - (10 : ℚ)) ∧
      ch.end_time = min (((4 : ℕ) : ℚ) * ((180 : ℚ) - (10 : ℚ)) + (180 : ℚ)) 700 := by
  have h4 : (4 : ℕ) < (Int.ceil ((700 : ℚ) / ((180 : ℚ) - (10 : ℚ)))).toNat := by
    have h : (Int.ceil ((700 : ℚ) / ((180 : ℚ) - (10 : ℚ)))) = 5 := by
      rw [Int.ceil_eq_iff]
      norm_num
    rw [h]
    decide
  exact (create_chunks_split_formula 180 10 700 (by decide) (by norm_num)).2.1 4 h4
    (by norm_num)

/-- C10 counterexample: with FFmpeg unavailable and a 100 s artifact, the
single emitted chunk has `end_time = 0`, not the artifact's duration. -/
theorem create_chunks_unavailable_counterexample :
    (create_chunks false 180 10 100 (fun _ => true) false).map AudioChunk.end_time
      = [0] ∧ (0 : ℚ) ≠ 100 := ⟨rfl, by norm_num⟩

/-- C10 (amended): whenever the measured duration is at most
`chunk_duration`, FFmpeg is unavailable, or chunk creation raises,
`create_chunks` returns exactly one chunk with index 0, start 0.0 and end
equal to the measured duration, which is the artifact's duration when
FFmpeg is available and 0.0 when it is not. -/
theorem create_chunks_single_fallback (ff raises : Bool) (cd ov : ℤ) (d : ℚ)
    (ok : ℕ → Bool)
    (h : ff = false ∨ raises = true ∨ d ≤ (cd : ℚ)) :
    create_chunks ff cd ov d ok raises = [create_single_chunk_info ff d] ∧
    (create_single_chunk_info ff d).chunk_index = 0 ∧
    (create_single_chunk_info ff d).start_time = 0 ∧
    (create_single_chunk_info ff d).end_time = get_audio_duration ff d ∧
    get_audio_duration ff d = (if ff then d else 0) := by
  refine ⟨?_, rfl, rfl, rfl, rfl⟩
  rw [create_chunks]
  split_ifs with h1 h2 h3 h4
  · rfl
  · rfl
  · rfl
  · rfl
  · exfalso
    rcases h with h | h | h
    · exact h1 h
    · exact h2 h
    · exact h3 h

/-- Witness for C10's amended statement: FFmpeg unavailable, 100 s
artifact. -/
theorem create_chunks_single_fallback_witness :
    create_chunks false 180 10 100 (fun _ => true) false =
      [create_single_chunk_info false 100] ∧
    (create_single_chunk_info false 100).chunk_index = 0 ∧
    (create_single_chunk_info false 100).start_time = 0 ∧
    (create_single_chunk_info false 100).end_time = get_audio_duration false 100 ∧
    get_audio_duration false 100 = (if false then (100 : ℚ) else 0) :=
  create_chunks_single_fallback false false 180 10 100 (fun _ => true) (Or.inl rfl)

/-- C5: the source's overlap removal strips a 6-word overlap (its loop
bound is `min(6, ...)`), while the code's own comment, guard and the
specification describe a 5-word window: on the exhibited input the source
strips all six words and returns `"tail"`, whereas the 5-word rule leaves
the text unchanged. -/
theorem remove_overlap_six_word_divergence :
    remove_overlap "x a b c d e f" "a b c d e f tail" = "tail" ∧
    remove_overlap_spec "x a b c d e f" "a b c d e f tail" = "a b c d e f tail" := by
  constructor
  · decide
  · decide

/-- C4: when no chunk succeeded (no status hash reads `"completed"`,
including the no-chunks case), the pipeline merge returns a terminal error
result, never a success with empty text. -/
theorem merge_chunk_results_zero_completed
    (chunks : List (AudioChunk × Option ChunkStatusRec))
    (h : ∀ p ∈ chunks, ∀ st, p.2 = some st → st.status ≠ "completed") :
    (merge_chunk_results chunks).status = "error" ∧
    (merge_chunk_results chunks).error = some "No completed chunks found" ∧
    (merge_chunk_results chunks).text = "" := by
  have hempty : completed_chunk_results chunks = [] := by
    rw [completed_chunk_results, List.filterMap_eq_nil_iff]
    intro p hp
    cases hp2 : p.2 with
    | none => rfl
    | some st =>
      rw [Option.some_bind]
      exact if_neg (h p hp st hp2)
  rw [merge_chunk_results, hempty]
  exact ⟨rfl, rfl, rfl⟩

/-- Witness for C4: one errored chunk, one chunk whose status hash is
gone. -/
theorem merge_chunk_results_zero_completed_witness :
    (merge_chunk_results [(⟨0, 0, 180, 180, false⟩, some ⟨"error", "", 0⟩),
        (⟨1, 170, 350, 180, false⟩, none)]).status = "error" ∧
    (merge_chunk_results [(⟨0, 0, 180, 180, false⟩, some ⟨"error", "", 0⟩),
        (⟨1, 170, 350, 180, false⟩, none)]).error = some "No completed chunks found" ∧
    (merge_chunk_results [(⟨0, 0, 180, 180, false⟩, some ⟨"error", "", 0⟩),
        (⟨1, 170, 350, 180, false⟩, none)]).text = "" := by
  refine merge_chunk_results_zero_completed _ ?_
  intro p hp st hst
  simp only [List.mem_cons, List.not_mem_nil, or_false] at hp
  rcases hp with rfl | rfl
  · cases hst
    decide
  · cases hst

/-- A merge over at least one chunk result always reports completion. -/
lemma merge_transcripts_status (rs : List ChunkResult) :
    (merge_transcripts rs).status = "completed" := rfl

/-- If the extraction loop found nothing, no status hash reads
`"completed"`. -/
lemma count_completed_eq_zero_of_results_nil
    (chunks : List (AudioChunk × Option ChunkStatusRec))
    (h : completed_chunk_results chunks = []) :
    count_chunk_status chunks "completed" = 0 := by
  rw [completed_chunk_results, List.filterMap_eq_nil_iff] at h
  rw [count_chunk_status, List.countP_eq_zero]
  intro r hr
  rw [List.mem_filterMap] at hr
  obtain ⟨p, hp, hpr⟩ := hr
  have hnone := h p hp
  intro hcc
  rw [beq_iff_eq] at hcc
  rw [hpr, Option.some_bind, if_pos hcc] at hnone
  cases hnone

/-- With at least one completed status hash, the pipeline merge reaches
`merge_transcripts` and reports completion. -/
lemma merge_chunk_results_status_of_completed_pos
    (chunks : List (AudioChunk × Option ChunkStatusRec))
    (h : 0 < count_chunk_status chunks "completed") :
    (merge_chunk_results chunks).status = "completed" := by
  rw [merge_chunk_results]
  rcases hres : completed_chunk_results chunks with _ | ⟨a, rest⟩
  · exact absurd (count_completed_eq_zero_of_results_nil chunks hres) (by omega)
  · rw [List.isEmpty_cons, if_neg (by simp)]
    exact merge_transcripts_status _

/-- C2: a chunked session whose counters satisfy
`completed + failed = total` is finalized by one reconciler pass: all
failed means session status `error`; otherwise the completed chunks are
merged, the merged text written onto the session, status set to
`completed`, chunk status records and chunk files released, and a warning
naming the failed-chunk count recorded whenever `failed > 0`; a session
with `completed + failed < total` is left unchanged. -/
theorem reconciler_finalizes_done_sessions (sess : SessionState)
    (hstrat : sess.processing_strategy = "chunked") :
    ((get_chunked_progress sess.total_chunks sess.chunks).completed_chunks +
        (get_chunked_progress sess.total_chunks sess.chunks).failed_chunks =
          sess.total_chunks →
      ((get_chunked_progress sess.total_chunks sess.chunks).completed_chunks = 0 →
        (check_chunked_completion sess).1.status = "error" ∧
        (check_chunked_completion sess).2 = true) ∧
      (0 < (get_chunked_progress sess.total_chunks sess.chunks).completed_chunks →
        (check_chunked_completion sess).1.status = "completed" ∧
        (check_chunked_completion sess).1.transcript_text =
          (merge_chunk_results sess.chunks).text ∧
        (check_chunked_completion sess).1.chunks =
          (sess.chunks.map fun p => (p.1, none)) ∧
        (check_chunked_completion sess).1.chunk_files_deleted = true ∧
        (check_chunked_completion sess).2 = true ∧
        (0 < (get_chunked_progress sess.total_chunks sess.chunks).failed_chunks →
          (check_chunked_completion sess).1.warning =
            some (toString
                (get_chunked_progress sess.total_chunks sess.chunks).failed_chunks ++
              " chunks failed but transcript completed with available chunks")))) ∧
    ((get_chunked_progress sess.total_chunks sess.chunks).completed_chunks +
        (get_chunked_progress sess.total_chunks sess.chunks).failed_chunks <
          sess.total_chunks →
      check_chunked_completion sess = (sess, false)) := by
  have hne : ¬(sess.processing_strategy ≠ "chunked") := by
    rw [hstrat]
    intro hcon
    exact hcon rfl
  refine ⟨fun hdone => ⟨fun hzero => ?_, fun hpos => ?_⟩, fun hlt => ?_⟩
  · rw [check_chunked_completion, if_neg hne, if_neg (by omega), if_pos hzero]
    exact ⟨rfl, rfl⟩
  · have hcomp : (merge_chunk_results sess.chunks).status = "completed" := by
      apply merge_chunk_results_status_of_completed_pos
      have hle : (get_chunked_progress sess.total_chunks sess.chunks).completed_chunks
          ≤ count_chunk_status sess.chunks "completed" := by
        rw [get_chunked_progress]
        split_ifs
        · simp
        · exact le_refl _
      omega
    rw [check_chunked_completion, if_neg hne, if_neg (by omega),
      if_neg (by omega), if_pos hcomp]
    refine ⟨rfl, rfl, rfl, rfl, rfl, fun hfail => ?_⟩
    simp only [if_pos hfail]
  · rw [check_chunked_completion, if_neg hne, if_pos hlt]

/-- Witness for C2: three chunks, two completed and one errored, counters
2 + 1 = 3. -/
theorem reconciler_finalizes_done_sessions_witness :
    (0 <
      (get_chunked_progress 3
          [(⟨0, 0, 180, 180, false⟩, some ⟨"completed", "hello there", 1⟩),
           (⟨1, 170, 350, 180, false⟩, some ⟨"completed", "there friend", 1⟩),
           (⟨2, 340, 520, 180, false⟩, some ⟨"error", "", 0⟩)]).completed_chunks) ∧
    ((check_chunked_completion
        { processing_strategy := "chunked", status := "processing",
          total_chunks := 3,
          chunks :=
            [(⟨0, 0, 180, 180, false⟩, some ⟨"completed", "hello there", 1⟩),
             (⟨1, 170, 350, 180, false⟩, some ⟨"completed", "there friend", 1⟩),
             (⟨2, 340, 520, 180, false⟩, some ⟨"error", "", 0⟩)],
          transcript_text := "", transcript_confidence := 0,
          transcript_words := 0, chunks_processed := 0, warning := none,
          error := none, chunk_files_deleted := false }).1.status = "completed") := by
  refine ⟨by decide, ?_⟩
  exact (((reconciler_finalizes_done_sessions _ rfl).1 (by decide)).2 (by decide)).1

/-- C8: the completed and failed counters derived from the per-chunk
status records never sum to more than the chunk count recorded at session
creation (`total_chunks = len(chunks_info)`), whatever state each status
record is in. -/
theorem chunk_counters_bounded (total_chunks : ℕ)
    (chunks : List (AudioChunk × Option ChunkStatusRec))
    (h : total_chunks = chunks.length) :
    (get_chunked_progress total_chunks chunks).completed_chunks +
      (get_chunked_progress total_chunks chunks).failed_chunks ≤ total_chunks := by
  rw [get_chunked_progress]
  split_ifs with h0
  · simp
  · have hmono : (chunks.filterMap Prod.snd).countP (fun r => r.status == "error") ≤
        (chunks.filterMap Prod.snd).countP
          (fun r => decide ¬((r.status == "completed") = true)) := by
      apply List.countP_mono_left
      intro r _ he
      rw [beq_iff_eq] at he
      rw [he]
      decide
    have hpart : (chunks.filterMap Prod.snd).countP (fun r => r.status == "completed") +
        (chunks.filterMap Prod.snd).countP
          (fun r => decide ¬((r.status == "completed") = true)) =
        (chunks.filterMap Prod.snd).length :=
      (List.length_eq_countP_add_countP
        (fun r => r.status == "completed") (chunks.filterMap Prod.snd)).symm
    have hlen : (chunks.filterMap Prod.snd).length ≤ chunks.length :=
      List.length_filterMap_le _ _
    simp only [count_chunk_status]
    omega

/-- Witness for C8: three recorded chunks, one of each status. -/
theorem chunk_counters_bounded_witness :
    (get_chunked_progress 3
        [(⟨0, 0, 180, 180, false⟩, some ⟨"completed", "a", 1⟩),
         (⟨1, 170, 350, 180, false⟩, some ⟨"processing", "", 0⟩),
         (⟨2, 340, 520, 180, false⟩, some ⟨"error", "", 0⟩)]).completed_chunks +
      (get_chunked_progress 3
        [(⟨0, 0, 180, 180, false⟩, some ⟨"completed", "a", 1⟩),
         (⟨1, 170, 350, 180, false⟩, some ⟨"processing", "", 0⟩),
         (⟨2, 340, 520, 180, false⟩, some ⟨"error", "", 0⟩)]).failed_chunks ≤ 3 :=
  chunk_counters_bounded 3 _ (by decide)

/-- Unfolding of `xclaim` when the pending entry is absent. -/
lemma xclaim_eq_of_find_none (pel : List PelEntry) (consumer : String)
    (min_idle id : ℕ) (h : find_pel pel id = none) :
    xclaim pel consumer min_idle id = (pel, false) := by
  rw [xclaim, h]

/-- Unfolding of `xclaim` when the pending entry is found. -/
lemma xclaim_eq_of_find_some (pel : List PelEntry) (consumer : String)
    (min_idle id : ℕ) (e : PelEntry) (h : find_pel pel id = some e) :
    xclaim pel consumer min_idle id =
      if min_idle ≤ e.idle then
        (pel.map fun x =>
          if x.message_id = id then { x with consumer := consumer, idle := 0 }
          else x, true)
      else (pel, false) := by
  rw [xclaim, h]

/-- An `xclaim` never changes which message ids are pending. -/
lemma xclaim_preserves_ids (pel : List PelEntry) (consumer : String)
    (min_idle id : ℕ) :
    ((xclaim pel consumer min_idle id).1).map PelEntry.message_id =
      pel.map PelEntry.message_id := by
  cases h : find_pel pel id with
  | none => rw [xclaim_eq_of_find_none pel consumer min_idle id h]
  | some e =>
    rw [xclaim_eq_of_find_some pel consumer min_idle id e h]
    split_ifs
    · rw [List.map_map]
      apply List.map_congr_left
      intro x _
      by_cases hx : x.message_id = id
      · simp only [Function.comp_apply, if_pos hx]
      · simp only [Function.comp_apply, if_neg hx]
    · rfl

/-- C3 counterexample: in `FixedTranscriptionWorker.run` a message whose
handler fails with retries remaining (retry count 0) is acknowledged
anyway — the pending list is emptied and nothing is dead-lettered. -/
theorem transcription_worker_acks_failed_message :
    get_retry_count [] = 0 ∧
    fixed_worker_handle_message ⟨[⟨7, "worker_1", 0⟩], []⟩ 7 [] false false =
      ⟨[], []⟩ := ⟨rfl, rfl⟩

/-- C3 (amended): the base worker runtime leaves a failed message with
retries remaining unacknowledged and acknowledges only on handler success
or on dead-lettering at exhausted retries; the transcription worker's
overriding run loop instead acknowledges unconditionally. -/
theorem base_worker_ack_only_on_success_or_dlq (st : WorkerState)
    (stream_name : String) (id : ℕ) (fields : List (String × String))
    (now : String) (s r : Bool) :
    (get_retry_count fields < 3 → s = false →
      base_worker_handle_message st stream_name id fields now s r = st) ∧
    (get_retry_count fields < 3 → s = true → r = false →
      base_worker_handle_message st stream_name id fields now s r =
        { st with pel := xack st.pel id }) ∧
    (3 ≤ get_retry_count fields →
      base_worker_handle_message st stream_name id fields now s r =
        { pel := xack st.pel id
          dlq := st.dlq ++ [{ original_message_id := id
                              original_stream := stream_name
                              error := "Max retries exceeded"
                              failed_at := now
                              retry_count := (fields.lookup "retry_count").getD "0"
                              original_fields := fields }] }) ∧
    (∀ (s2 r2 : Bool),
      fixed_worker_handle_message st id fields s2 r2 =
        { st with pel := xack st.pel id }) := by
  refine ⟨fun hlt hs => ?_, fun hlt hs hr => ?_, fun hge => ?_, fun s2 r2 => rfl⟩
  · rw [base_worker_handle_message, if_neg (by omega), hs]
    cases r
    · rfl
    · rfl
  · rw [base_worker_handle_message, if_neg (by omega), hr, hs]
    rfl
  · rw [base_worker_handle_message, if_pos hge]
    rfl

/-- Witness for C3's amended statement: a failing first delivery leaves
the state untouched. -/
theorem base_worker_ack_only_on_success_or_dlq_witness :
    base_worker_handle_message ⟨[⟨7, "worker_1", 0⟩], []⟩ "audio_processing" 7
        [("session_id", "abc")] "t0" false false =
      ⟨[⟨7, "worker_1", 0⟩], []⟩ :=
  (base_worker_ack_only_on_success_or_dlq ⟨[⟨7, "worker_1", 0⟩], []⟩
    "audio_processing" 7 [("session_id", "abc")] "t0" false false).1
    (by decide) rfl

/-- C6: because a stream entry's fields are immutable and
`increment_retry_count` only mutates the in-memory dict, every redelivery
of a message enqueued without a `retry_count` field sees retry count 0;
any number of failing delivery cycles therefore appends nothing to the
dead-letter stream and leaves the message pending. -/
theorem retry_count_never_persists (stream_name consumer now : String)
    (id : ℕ) (fields : List (String × String)) (n : ℕ) (st : WorkerState)
    (h : get_retry_count fields < 3) :
    (failing_delivery_passes stream_name consumer id fields now n st).dlq =
      st.dlq ∧
    (failing_delivery_passes stream_name consumer id fields now n st).pel.map
        PelEntry.message_id =
      st.pel.map PelEntry.message_id := by
  induction n generalizing st with
  | zero => exact ⟨rfl, rfl⟩
  | succ n ih =>
    have hstep :
        failing_delivery_pass st stream_name consumer id fields now =
          { st with pel := (xclaim st.pel consumer 300000 id).1 } := by
      rw [failing_delivery_pass, recover_stuck_message, if_neg (by omega)]
      rfl
    have hrec := ih (failing_delivery_pass st stream_name consumer id fields now)
    rw [failing_delivery_passes] at *
    refine ⟨?_, ?_⟩
    · rw [hrec.1, hstep]
    · rw [hrec.2, hstep]
      exact xclaim_preserves_ids st.pel consumer 300000 id

/-- Witness for C6: four failing delivery cycles of a message with no
`retry_count` field leave the dead-letter stream empty and the message
pending. -/
theorem retry_count_never_persists_witness :
    (failing_delivery_passes "audio_processing" "worker_2" 9
        [("session_id", "abc")] "t0" 4 ⟨[⟨9, "worker_1", 400000⟩], []⟩).dlq =
      [] ∧
    (failing_delivery_passes "audio_processing" "worker_2" 9
        [("session_id", "abc")] "t0" 4 ⟨[⟨9, "worker_1", 400000⟩], []⟩).pel.map
        PelEntry.message_id =
      [9] :=
  retry_count_never_persists "audio_processing" "worker_2" "t0" 9
    [("session_id", "abc")] 4 ⟨[⟨9, "worker_1", 400000⟩], []⟩ (by decide)

/-- C7 counterexample: after five consecutive loop errors the run loop
breaks out and `run` returns 0 — the exit status is zero, not non-zero. -/
theorem five_consecutive_errors_exit_code_zero :
    (base_worker_run true (List.replicate 5 LoopEvent.loopError)).1 = 0 := rfl

/-- C7 (amended): five consecutive loop-level errors stop processing (no
further message is handled), but the run method returns 0, so the process
exits with status zero; a non-zero return arises only from the dependency
check. -/
theorem run_loop_stops_after_five_errors (rest : List LoopEvent) :
    base_worker_run true (List.replicate 5 LoopEvent.loopError ++ rest) =
      (0, 0) ∧
    base_worker_run false rest = (1, 0) := by
  constructor
  · rfl
  · rfl

/-- Claiming succeeds and rewrites the entry when the pending entry is
idle long enough. -/
lemma xclaim_success (pel : List PelEntry) (consumer : String)
    (min_idle id : ℕ) (e : PelEntry)
    (hfind : find_pel pel id = some e) (hidle : min_idle ≤ e.idle) :
    (xclaim pel consumer min_idle id).2 = true ∧
    find_pel (xclaim pel consumer min_idle id).1 id =
      some { e with consumer := consumer, idle := 0 } := by
  rw [xclaim_eq_of_find_some pel consumer min_idle id e hfind, if_pos hidle]
  refine ⟨rfl, ?_⟩
  induction pel with
  | nil => cases hfind
  | cons x xs ih =>
    rw [List.map_cons]
    by_cases hx : x.message_id = id
    · rw [find_pel, if_pos hx] at hfind
      cases hfind
      simp only [find_pel, if_pos hx]
    · rw [find_pel, if_neg hx] at hfind
      simp only [find_pel, if_neg hx]
      exact ih hfind

/-- C9: with a positive idle threshold, two workers that both saw the
same pending snapshot and claim the same message get exactly one
successful claim — the second transfer is refused because the first one
reset the idle time — and the message is owned by the first claimant
afterward. -/
theorem concurrent_claims_exclusive (pel : List PelEntry) (wA wB : String)
    (min_idle snapshot_idle id : ℕ) (e : PelEntry)
    (hfind : find_pel pel id = some e)
    (hpos : 0 < min_idle)
    (hsnap : min_idle < snapshot_idle)
    (hidle : min_idle ≤ e.idle) :
    (claim_one pel wA min_idle id snapshot_idle).2 = true ∧
    (claim_one (claim_one pel wA min_idle id snapshot_idle).1 wB min_idle id
        snapshot_idle).2 = false ∧
    find_pel (claim_one (claim_one pel wA min_idle id snapshot_idle).1 wB
        min_idle id snapshot_idle).1 id =
      some { e with consumer := wA, idle := 0 } := by
  have h1 := xclaim_success pel wA min_idle id e hfind hidle
  have hn : ¬(min_idle ≤
      ({ e with consumer := wA, idle := 0 } : PelEntry).idle) := by
    intro hc
    simp only at hc
    omega
  have h2 : xclaim (xclaim pel wA min_idle id).1 wB min_idle id =
      ((xclaim pel wA min_idle id).1, false) := by
    rw [xclaim_eq_of_find_some _ wB min_idle id _ h1.2, if_neg hn]
  have hc1 : claim_one pel wA min_idle id snapshot_idle =
      xclaim pel wA min_idle id := by
    rw [claim_one, if_pos hsnap]
  have hc2 : claim_one (xclaim pel wA min_idle id).1 wB min_idle id
      snapshot_idle = ((xclaim pel wA min_idle id).1, false) := by
    rw [claim_one, if_pos hsnap]
    exact h2
  rw [hc1, hc2]
  exact ⟨h1.1, rfl, h1.2⟩

/-- Witness for C9: two workers race for message 1, idle 400 s with a
300 s threshold. -/
theorem concurrent_claims_exclusive_witness :
    (claim_one [⟨1, "worker_0", 400000⟩] "worker_A" 300000 1 400000).2 = true ∧
    (claim_one (claim_one [⟨1, "worker_0", 400000⟩] "worker_A" 300000 1
        400000).1 "worker_B" 300000 1 400000).2 = false ∧
    find_pel (claim_one (claim_one [⟨1, "worker_0", 400000⟩] "worker_A" 300000 1
        400000).1 "worker_B" 300000 1 400000).1 1 =
      some ⟨1, "worker_A", 0⟩ :=
  concurrent_claims_exclusive [⟨1, "worker_0", 400000⟩] "worker_A" "worker_B"
    300000 400000 1 ⟨1, "worker_0", 400000⟩ (by decide) (by decide) (by decide)
    (by decide)

end MaiChart
